import Mathlib

/-!
Verification of the dnd-investments board against its specification.

The development shallowly embeds the money arithmetic, the transfer engine,
the installment splitter, the currency parser and the board-state manager of
the repository:

* `src/lib/db.ts` — remote persistence helpers (`transferTask`, `addTask`, ...)
* `src/components/KanbanBoard.tsx` — board orchestration and validation
* `src/components/BoardColumn.tsx` — `parseCurrencyInput`, `computePreview`,
  `createProjections`, the transfer-modal validation
* the fallback-capable `KanbanBoard.tsx` variant (test mode, `local*` helpers)

JavaScript numbers are modelled exactly over `ℚ` (binary floating point is
abstracted away); the JS special values `NaN` and `Infinity`, which the
validation layers test for, are modelled by the `JsNum` type.
-/

namespace DnD

/-- JS `Math.round`: rounds half toward positive infinity. -/
def jsRound (q : ℚ) : ℤ := Rat.floor (q + 1 / 2)

/-- The repository's pervasive `Math.round(x * 100) / 100` (the `round2`
helper of the fallback board): round to the nearest cent. -/
def round2 (q : ℚ) : ℚ := (jsRound (q * 100) : ℚ) / 100

/-- `Math.floor(x * 100) / 100`: truncate toward zero cents (used for the
per-installment base amount). -/
def floor2 (q : ℚ) : ℚ := (Rat.floor (q * 100) : ℚ) / 100

/-- A value that is an exact two-decimal amount: some integer number of
hundredths of the currency unit. -/
def TwoDec (q : ℚ) : Prop := ∃ k : ℤ, q = (k : ℚ) / 100

/-- JS numbers as tested by the validation code: `NaN`, signed infinities,
or a finite value (modelled exactly as a rational). -/
inductive JsNum where
  | nan
  | inf (neg : Bool)
  | fin (q : ℚ)
deriving DecidableEq

/-- JS `isNaN`. -/
def JsNum.isNaN : JsNum → Bool
  | .nan => true
  | _ => false

/-- JS `Number.isFinite`. -/
def JsNum.isFinite : JsNum → Bool
  | .fin _ => true
  | _ => false

/-- The rational value of a finite JS number (junk `0` on non-finite input,
which the guards rule out before any use). -/
def JsNum.q : JsNum → ℚ
  | .fin x => x
  | _ => 0

/-- JS `a <= b` (false whenever an operand is `NaN`). -/
def jsLe : JsNum → JsNum → Bool
  | .nan, _ => false
  | _, .nan => false
  | .inf a, .inf b => a || !b
  | .inf a, .fin _ => a
  | .fin _, .inf b => !b
  | .fin x, .fin y => decide (x ≤ y)

/-- JS `a > b` (false whenever an operand is `NaN`). -/
def jsGt : JsNum → JsNum → Bool
  | .nan, _ => false
  | _, .nan => false
  | .inf a, .inf b => !a && b
  | .inf a, .fin _ => !a
  | .fin _, .inf b => b
  | .fin x, .fin y => decide (y < x)

/-- A card (`Task` in `src/lib/db.ts` and `TaskCard.tsx`): `content` is the
monetary amount as the code stores it (a two-decimal currency-unit number). -/
structure Task where
  id : String
  columnId : String
  content : ℚ
  dateISO : Option String
  isProjection : Bool
deriving DecidableEq

/-- A list/column (`Column` in `BoardColumn.tsx`). -/
structure Column where
  id : String
  title : String
deriving DecidableEq

/-- `transferTask` of `src/lib/db.ts` (lines 131-157).  The tasks record is
modelled as a list keyed by `id`; the single multi-path `update(ref(db,"/"))`
is modelled by applying all paths of the update record at once.  Writing
`tasks/<newId>` overwrites any entry with that key, hence the second filter.
Returns `none` when the source is missing (the function throws). -/
def dbTransferTask (tasks : List Task) (sourceId : String) (amount : ℚ)
    (targetColumnId : String) (dateISO : Option String) (newId nowISO : String) :
    Option (List Task) :=
  match tasks.find? (fun t => t.id == sourceId) with
  | none => none
  | some source =>
      let remaining := round2 (source.content - amount)
      let newTask : Task :=
        { id := newId, columnId := targetColumnId, content := round2 amount,
          dateISO := some (dateISO.getD nowISO), isProjection := source.isProjection }
      let afterSource :=
        if remaining ≤ 0 then tasks.filter (fun t => !(t.id == sourceId))
        else tasks.map (fun t => if t.id == sourceId then { t with content := remaining } else t)
      some ((afterSource.filter (fun t => !(t.id == newId))) ++ [newTask])

/-- The source-splicing part of `localTransferTask` (fallback board,
`KanbanBoard.tsx` test-mode variant): find the first task with the given id,
reduce its amount by `amount` (rounded to the cent), and drop it when the
remainder is not positive.  A missing id leaves the list unchanged. -/
def spliceSource (amount : ℚ) (taskId : String) : List Task → List Task
  | [] => []
  | t :: ts =>
      if t.id == taskId then
        let remaining := round2 (t.content - amount)
        if 0 < remaining then { t with content := remaining } :: ts else ts
      else t :: spliceSource amount taskId ts

/-- `localTransferTask` of the fallback board: splice the source, then push a
new task in the target column; the new card always has `isProjection = false`. -/
def localTransferTask (ts : List Task) (taskId : String) (amount : ℚ)
    (targetColumnId : String) (dateISO : Option String) (newId nowISO : String) :
    List Task :=
  spliceSource amount taskId ts ++
    [{ id := newId, columnId := targetColumnId, content := round2 amount,
       dateISO := some (dateISO.getD nowISO), isProjection := false }]

/-- The end-to-end transfer submission: the transfer-modal button handler of
`BoardColumn.tsx` (finiteness, positivity and available-amount checks), then
the `transferTask` guard of `KanbanBoard.tsx` (`isNaN(amount) || amount <= 0`),
then `db.transferTask`.  The boolean records whether a persistence write was
issued; every rejection (and a thrown `db.transferTask`) leaves the board
untouched with no write. -/
def transferSubmit (tasks : List Task) (task : Task) (amt : JsNum)
    (targetId : String) (dateISO : Option String) (newId nowISO : String) :
    List Task × Bool :=
  if !amt.isFinite || jsLe amt (.fin 0) then (tasks, false)
  else if jsGt amt (.fin task.content) then (tasks, false)
  else if amt.isNaN || jsLe amt (.fin 0) then (tasks, false)
  else
    match dbTransferTask tasks task.id amt.q targetId dateISO newId nowISO with
    | none => (tasks, false)
    | some res => (res, true)

/-- Inclusive month count of `computePreview` and `createProjections`
(`BoardColumn.tsx`): `(endYear-startYear)*12 + (endMonth-startMonth) + 1`. -/
def monthsCountOf (startY startM endY endM : ℤ) : ℤ :=
  (endY - startY) * 12 + (endM - startM) + 1

/-- The installment amounts computed by both `computePreview` and
`createProjections`: all entries but the last are the base
`Math.floor((value/monthsCount)*100)/100`; the last is
`Math.round((value - base*(monthsCount-1))*100)/100`. -/
def splitAmounts (totalValue : ℚ) (monthsCount : ℕ) : List ℚ :=
  let base := floor2 (totalValue / (monthsCount : ℚ))
  (List.range monthsCount).map (fun i =>
    if i < monthsCount - 1 then base
    else round2 (totalValue - base * ((monthsCount : ℚ) - 1)))

/-- `computePreview` of `BoardColumn.tsx` (lines 563-585), with the
`YYYY-MM` fields already split into numbers: `null` (here `none`) when the
month count is not positive, else the installment amounts. -/
def computePreview (value : ℚ) (startY startM endY endM : ℤ) :
    Option (List ℚ) :=
  let monthsCount := monthsCountOf startY startM endY endM
  if monthsCount ≤ 0 then none
  else some (splitAmounts value monthsCount.toNat)

/-- `getDaysInMonth` of `BoardColumn.tsx`: `new Date(year, month, 0).getDate()`
for a 1-based `month`, i.e. the number of days of that Gregorian month. -/
def getDaysInMonth (year month : ℤ) : ℤ :=
  if month = 2 then
    if year % 4 = 0 && (!(year % 100 = 0) || year % 400 = 0) then 29 else 28
  else if month = 4 || month = 6 || month = 9 || month = 11 then 30
  else 31

/-- The projection items built by `createProjections` (`BoardColumn.tsx`
lines 808-842): amount, year, month and clamped day of each installment.
`Int.fdiv`/`Int.tmod` match JS `Math.floor(x/12)` and `x % 12` (the operands
are nonnegative in every reachable call). -/
def createProjectionsItems (totalValue : ℚ) (startY startM endY endM dayNumber : ℤ) :
    List (ℚ × ℤ × ℤ × ℤ) :=
  let monthsCount := monthsCountOf startY startM endY endM
  if monthsCount ≤ 0 then []
  else
    (splitAmounts totalValue monthsCount.toNat).enum.map (fun p =>
      let year := startY + Int.fdiv (startM - 1 + (p.1 : ℤ)) 12
      let month := Int.tmod (startM - 1 + (p.1 : ℤ)) 12 + 1
      let day := max 1 (min dayNumber (getDaysInMonth year month))
      (p.2, year, month, day))

/-- A call against the Firebase realtime store, as issued by `src/lib/db.ts`:
either a single multi-path `update(ref(db,"/"), updates)` (listing the paths
of the update record), or a single-path `set`/`remove`. -/
inductive DbWrite where
  | updateRoot (paths : List String)
  | setPath (path : String)
  | removePath (path : String)
deriving DecidableEq

/-- The write trace of `db.transferTask`: one single multi-path `update`
covering both the source entry and the new destination entry (or nothing at
all when the function throws on a missing source). -/
def dbTransferTaskWrites (tasks : List Task) (sourceId : String) (amount : ℚ)
    (newId : String) : List DbWrite :=
  match tasks.find? (fun t => t.id == sourceId) with
  | none => []
  | some source =>
      let remaining := round2 (source.content - amount)
      if remaining ≤ 0 then
        [.updateRoot ["tasks/" ++ sourceId, "tasks/" ++ newId]]
      else
        [.updateRoot ["tasks/" ++ sourceId ++ "/content", "tasks/" ++ newId]]

/-- The write trace of `createProjections` in the non-fallback path: the
projections are handed one by one to `onAddTask`, i.e. `addTask` of
`KanbanBoard.tsx`, which rejects non-positive amounts and otherwise issues one
single-entity `set(ref(db, "tasks/<id>"))` per installment via `db.addTask`. -/
def createProjectionsWrites (totalValue : ℚ) (startY startM endY endM : ℤ)
    (idGen : ℕ → String) : List DbWrite :=
  let monthsCount := monthsCountOf startY startM endY endM
  if monthsCount ≤ 0 then []
  else
    ((splitAmounts totalValue monthsCount.toNat).enum.filter
        (fun p => !decide (p.2 ≤ 0))).map
      (fun p => .setPath ("tasks/" ++ idGen p.1))

/-- A partial update of a task, as accepted by `editTask`/`localEditTask`:
`none` marks an absent field.  `dateISO := some none` models an explicit
`null`/`undefined` value under the key. -/
structure TaskPatch where
  content : Option ℚ
  dateISO : Option (Option String)
  columnId : Option String
  isProjection : Option Bool
deriving DecidableEq

/-- Field application of `localEditTask` (fallback board): present fields are
applied, `content` is rounded to the cent, and a falsy (empty) `columnId` is
ignored, exactly as the `patch.columnId ? ... : ...` spread does. -/
def applyPatch (t : Task) (p : TaskPatch) : Task :=
  { t with
    content := match p.content with
      | some c => round2 c
      | none => t.content,
    dateISO := match p.dateISO with
      | some d => d
      | none => t.dateISO,
    columnId := match p.columnId with
      | some cid => if cid = "" then t.columnId else cid
      | none => t.columnId,
    isProjection := p.isProjection.getD t.isProjection }

/-- A remote persistence call as attempted by the board manager (the `db.*`
helpers it invokes). -/
inductive RemoteCall where
  | addColumnC (title : String)
  | removeColumnC (id : String)
  | addTaskC (columnId : String) (content : ℚ) (dateISO : String) (isProjection : Bool)
  | removeTaskC (id : String)
  | editTaskC (id : String) (patch : TaskPatch)
  | transferTaskC (sourceId : String) (amount : ℚ) (targetColumnId : String)
      (dateISO : Option String)
  | updateColumnsOrderC (order : List String)
deriving DecidableEq

/-- The local snapshot of the fallback-capable `KanbanBoard`: the test-mode
flag and the `columns`/`tasks` React state. -/
structure BoardState where
  testMode : Bool
  columns : List Column
  tasks : List Task
deriving DecidableEq

/-- `DEFAULT_COLUMNS` of the fallback board. -/
def DEFAULT_COLUMNS : List Column :=
  [{ id := "col-1", title := "A Fazer" },
   { id := "col-2", title := "Fazendo" },
   { id := "col-3", title := "Feito" }]

/-- `enterTestMode`: set the flag, and reset the snapshot to the default
columns and an empty task list (the function installs these unconditionally). -/
def enterTestMode (_s : BoardState) : BoardState :=
  { testMode := true, columns := DEFAULT_COLUMNS, tasks := [] }

/-- `localAddColumn`. -/
def localAddColumn (s : BoardState) (id title : String) : BoardState :=
  { s with columns := s.columns ++ [{ id := id, title := title }] }

/-- `localRemoveColumn`: drop the column and every task in it. -/
def localRemoveColumn (s : BoardState) (id : String) : BoardState :=
  { s with
    columns := s.columns.filter (fun c => !(c.id == id)),
    tasks := s.tasks.filter (fun t => !(t.columnId == id)) }

/-- `localAddTask`: append a task whose content is rounded to the cent. -/
def localAddTask (s : BoardState) (columnId : String) (content : ℚ)
    (dateISO : String) (isProjection : Bool) (newId : String) : BoardState :=
  { s with tasks := s.tasks ++
      [{ id := newId, columnId := columnId, content := round2 content,
         dateISO := some dateISO, isProjection := isProjection }] }

/-- `localRemoveTask`. -/
def localRemoveTask (s : BoardState) (taskId : String) : BoardState :=
  { s with tasks := s.tasks.filter (fun t => !(t.id == taskId)) }

/-- `localEditTask`. -/
def localEditTask (s : BoardState) (taskId : String) (p : TaskPatch) : BoardState :=
  { s with tasks := s.tasks.map (fun t => if t.id == taskId then applyPatch t p else t) }

/-- `localUpdateColumnsOrder`: rebuild the column list following the new
order, dropping unknown ids (`map` over a `Map` lookup plus `filter(Boolean)`). -/
def localUpdateColumnsOrder (s : BoardState) (newOrder : List String) : BoardState :=
  { s with columns := newOrder.filterMap (fun id => s.columns.find? (fun c => c.id == id)) }

/-- `addColumn` of the fallback board.  `ok` is the outcome of the attempted
remote call; in test mode no call is attempted, on failure the manager enters
test mode and re-applies the mutation locally. -/
def mAddColumn (s : BoardState) (title newColId : String) (ok : Bool) :
    BoardState × List RemoteCall :=
  if s.testMode then (localAddColumn s newColId title, [])
  else if ok then (s, [.addColumnC title])
  else (localAddColumn (enterTestMode s) newColId title, [.addColumnC title])

/-- `removeColumn` of the fallback board. -/
def mRemoveColumn (s : BoardState) (id : String) (ok : Bool) :
    BoardState × List RemoteCall :=
  if s.testMode then (localRemoveColumn s id, [])
  else if ok then (s, [.removeColumnC id])
  else (localRemoveColumn (enterTestMode s) id, [.removeColumnC id])

/-- `addTask` of the fallback board, guard `isNaN(amount) || amount <= 0`
included. -/
def mAddTask (s : BoardState) (columnId : String) (a : JsNum)
    (dateISO : Option String) (isProjection : Bool) (newId nowISO : String)
    (ok : Bool) : BoardState × List RemoteCall :=
  if a.isNaN || jsLe a (.fin 0) then (s, [])
  else if s.testMode then
    (localAddTask s columnId a.q (dateISO.getD nowISO) isProjection newId, [])
  else if ok then
    (s, [.addTaskC columnId (round2 a.q) (dateISO.getD nowISO) isProjection])
  else
    (localAddTask (enterTestMode s) columnId a.q (dateISO.getD nowISO) isProjection newId,
     [.addTaskC columnId (round2 a.q) (dateISO.getD nowISO) isProjection])

/-- `removeTask` of the fallback board. -/
def mRemoveTask (s : BoardState) (taskId : String) (ok : Bool) :
    BoardState × List RemoteCall :=
  if s.testMode then (localRemoveTask s taskId, [])
  else if ok then (s, [.removeTaskC taskId])
  else (localRemoveTask (enterTestMode s) taskId, [.removeTaskC taskId])

/-- `transferTask` of the fallback board, guard included. -/
def mTransferTask (s : BoardState) (taskId : String) (a : JsNum)
    (targetColumnId : String) (dateISO : Option String) (newId nowISO : String)
    (ok : Bool) : BoardState × List RemoteCall :=
  if a.isNaN || jsLe a (.fin 0) then (s, [])
  else if s.testMode then
    ({ s with tasks := localTransferTask s.tasks taskId a.q targetColumnId dateISO newId nowISO }, [])
  else if ok then (s, [.transferTaskC taskId a.q targetColumnId dateISO])
  else
    ({ enterTestMode s with
        tasks := localTransferTask (enterTestMode s).tasks taskId a.q targetColumnId dateISO newId nowISO },
     [.transferTaskC taskId a.q targetColumnId dateISO])

/-- `toggleProjection` of the fallback board: an `editTask` fixing
`isProjection := false`. -/
def mToggleProjection (s : BoardState) (taskId : String) (ok : Bool) :
    BoardState × List RemoteCall :=
  if s.testMode then (localEditTask s taskId ⟨none, none, none, some false⟩, [])
  else if ok then (s, [.editTaskC taskId ⟨none, none, none, some false⟩])
  else
    (localEditTask (enterTestMode s) taskId ⟨none, none, none, some false⟩,
     [.editTaskC taskId ⟨none, none, none, some false⟩])

/-- `editTask` of the fallback board, guard included. -/
def mEditTask (s : BoardState) (taskId : String) (a : JsNum)
    (dateISO : Option String) (isProjection : Bool) (nowISO : String) (ok : Bool) :
    BoardState × List RemoteCall :=
  if a.isNaN || jsLe a (.fin 0) then (s, [])
  else if s.testMode then
    (localEditTask s taskId ⟨some a.q, some (some (dateISO.getD nowISO)), none, some isProjection⟩, [])
  else if ok then
    (s, [.editTaskC taskId ⟨some (round2 a.q), some (some (dateISO.getD nowISO)), none, some isProjection⟩])
  else
    (localEditTask (enterTestMode s) taskId
       ⟨some a.q, some (some (dateISO.getD nowISO)), none, some isProjection⟩,
     [.editTaskC taskId ⟨some (round2 a.q), some (some (dateISO.getD nowISO)), none, some isProjection⟩])

/-- `updateColumnsOrder` of the fallback board. -/
def mUpdateColumnsOrder (s : BoardState) (newOrder : List String) (ok : Bool) :
    BoardState × List RemoteCall :=
  if s.testMode then (localUpdateColumnsOrder s newOrder, [])
  else if ok then (s, [.updateColumnsOrderC newOrder])
  else (localUpdateColumnsOrder (enterTestMode s) newOrder, [.updateColumnsOrderC newOrder])

/-- `updateTaskColumn` inside `onDragOver` of the fallback board: an edit of
`columnId` plus, when a date string is supplied, `dateISO`. -/
def updateTaskColumnOp (s : BoardState) (taskId targetColumnId : String)
    (dateISO : Option String) (ok : Bool) : BoardState × List RemoteCall :=
  if s.testMode then
    (localEditTask s taskId ⟨none, dateISO.map some, some targetColumnId, none⟩, [])
  else if ok then
    (s, [.editTaskC taskId ⟨none, dateISO.map some, some targetColumnId, none⟩])
  else
    (localEditTask (enterTestMode s) taskId ⟨none, dateISO.map some, some targetColumnId, none⟩,
     [.editTaskC taskId ⟨none, dateISO.map some, some targetColumnId, none⟩])

/-- The payload attached to a draggable element. -/
inductive DragData where
  | column (c : Column)
  | task (t : Task)
deriving DecidableEq

/-- `onDragOver` of `src/components/KanbanBoard.tsx` (lines 347-383): the
persisted edits it issues.  A card dragged over a card of another list, or
over a list, gets its `columnId` reassigned and its `dateISO` refreshed to
now, committed through `db.editTask`. -/
def onDragOverEditMain (activeId overId : String) (activeData overData : DragData)
    (nowISO : String) : List RemoteCall :=
  if activeId = overId then []
  else
    match activeData, overData with
    | .task tAct, .task tOv =>
        if !(tOv.columnId == tAct.columnId) then
          [.editTaskC activeId ⟨none, some (some nowISO), some tOv.columnId, none⟩]
        else []
    | .task _, .column _ =>
        [.editTaskC activeId ⟨none, some (some nowISO), some overId, none⟩]
    | _, _ => []

/-- `onDragOver` of the fallback-capable `KanbanBoard` variant: the argument
it hands to `updateTaskColumn` keeps the card's own `dateISO` and only
defaults to now when the card has none. -/
def onDragOverPatchLocalVariant (activeId overId : String)
    (activeData overData : DragData) (nowISO : String) :
    Option (String × TaskPatch) :=
  if activeId = overId then none
  else
    match activeData, overData with
    | .task tAct, .task tOv =>
        if !(tOv.columnId == tAct.columnId) then
          some (activeId, ⟨none, some (some (tAct.dateISO.getD nowISO)), some tOv.columnId, none⟩)
        else none
    | .task tAct, .column _ =>
        some (activeId, ⟨none, some (some (tAct.dateISO.getD nowISO)), some overId, none⟩)
    | _, _ => none

/-- Whitespace as removed by JS `String.prototype.trim` (the code points the
inputs of interest can contain). -/
def isWsChar (c : Char) : Bool :=
  c == ' ' || c == '\t' || c == '\n' || c == '\r'

/-- JS `s.trim()`. -/
def jsTrim (l : List Char) : List Char :=
  ((l.dropWhile isWsChar).reverse.dropWhile isWsChar).reverse

/-- JS `s.indexOf(c) !== -1`. -/
def containsChar (l : List Char) (c : Char) : Bool :=
  l.any (fun x => x == c)

/-- JS `s.lastIndexOf(c)` (`-1` when absent). -/
def lastIndexOfChar (l : List Char) (c : Char) : ℤ :=
  match l.reverse.findIdx? (fun x => x == c) with
  | none => -1
  | some i => (l.length : ℤ) - 1 - (i : ℤ)

/-- The comma-to-dot substitution `replace(/,/g, ".")`. -/
def commaToDot (c : Char) : Char :=
  if c = ',' then '.' else c

/-- Separator normalization of `parseCurrencyInput` (`BoardColumn.tsx` lines
252-271): with both separators present the one appearing last is the decimal
separator and the other is stripped; a lone comma becomes the decimal dot. -/
def normalizeSeps (s : List Char) : List Char :=
  let hasComma := containsChar s ','
  let hasDot := containsChar s '.'
  if hasComma && hasDot then
    if lastIndexOfChar s ',' > lastIndexOfChar s '.' then
      (s.filter (fun c => !(c == '.'))).map commaToDot
    else s.filter (fun c => !(c == ','))
  else if hasComma then s.map commaToDot
  else s

/-- The shape test `/^\d+(?:\.\d+)?$/` of `parseCurrencyInput`. -/
def matchesNumberShape (l : List Char) : Bool :=
  let ds := l.takeWhile Char.isDigit
  let rest := l.dropWhile Char.isDigit
  !ds.isEmpty &&
    (rest.isEmpty ||
      (rest.headD ' ' == '.' && !(rest.drop 1).isEmpty && (rest.drop 1).all Char.isDigit))

/-- Split on a character, JS `String.prototype.split` style. -/
def splitOnChar (c : Char) : List Char → List (List Char)
  | [] => [[]]
  | x :: xs =>
      let r := splitOnChar c xs
      if x = c then [] :: r
      else (x :: r.headD []) :: r.tail

/-- Decimal digit string to natural number (`Number(...)` on the validated
digit substrings). -/
def digitsToNat (l : List Char) : ℕ :=
  l.foldl (fun acc c => acc * 10 + (c.toNat - 48)) 0

/-- The digit-level tail of `parseCurrencyInput` after normalization: shape
check, split into integer and decimal part, at most two decimals, pad to
exactly two.  Yields the integer part and the two-digit decimal part of the
`finalStr` the code builds. -/
def parseParts (normalized : List Char) : Option (ℕ × ℕ) :=
  if !matchesNumberShape normalized then none
  else
    let parts := splitOnChar '.' normalized
    if parts.length > 2 then none
    else
      let integerPart := parts.headD []
      let decimalPart := parts.getD 1 []
      if decimalPart.length > 2 then none
      else
        let dec2 :=
          if decimalPart.length = 0 then ['0', '0']
          else if decimalPart.length = 1 then decimalPart ++ ['0']
          else decimalPart
        some (digitsToNat integerPart, digitsToNat dec2)

/-- The numeric tail of `parseCurrencyInput`: `Number(finalStr)` of the two
parts, then `Math.round(value * 100) / 100`. -/
def parseNormalized (normalized : List Char) : Option ℚ :=
  (parseParts normalized).map (fun p => round2 ((p.1 : ℚ) + (p.2 : ℚ) / 100))

/-- `parseCurrencyInput` of `BoardColumn.tsx` (lines 248-301): trim, reject
empty input, normalize the separators, then parse; `none` models every thrown
error. -/
def parseCurrencyInput (input : List Char) : Option ℚ :=
  let s := jsTrim input
  if s.length = 0 then none
  else parseNormalized (normalizeSeps s)

/-- The amount stored by `addTask`/`editTask` of `KanbanBoard.tsx` for a
submitted amount: `Math.round(amount * 100) / 100`. -/
def addTaskContent (amount : ℚ) : ℚ := round2 amount

/-! ### Arithmetic toolkit -/

theorem ratFloor_eq_floor (q : ℚ) : Rat.floor q = ⌊q⌋ := by
  rw [Rat.floor_def', Rat.floor_def]

theorem floor_eq_of (q : ℚ) (z : ℤ) (h1 : (z : ℚ) ≤ q) (h2 : q < z + 1) :
    ⌊q⌋ = z :=
  Int.floor_eq_iff.mpr ⟨h1, h2⟩

theorem ratFloor_eq_of (q : ℚ) (z : ℤ) (h1 : (z : ℚ) ≤ q) (h2 : q < z + 1) :
    Rat.floor q = z := by
  rw [ratFloor_eq_floor]
  exact floor_eq_of q z h1 h2

theorem jsRound_eq_of (q : ℚ) (z : ℤ) (h1 : (z : ℚ) ≤ q + 1 / 2)
    (h2 : q + 1 / 2 < z + 1) : jsRound q = z :=
  ratFloor_eq_of _ z h1 h2

theorem round2_eq_of (q : ℚ) (k : ℤ) (h1 : (k : ℚ) ≤ q * 100 + 1 / 2)
    (h2 : q * 100 + 1 / 2 < k + 1) : round2 q = (k : ℚ) / 100 := by
  rw [round2, jsRound_eq_of (q * 100) k h1 h2]

theorem round2_int_div (k : ℤ) : round2 ((k : ℚ) / 100) = (k : ℚ) / 100 := by
  have h : ((k : ℚ) / 100) * 100 = (k : ℚ) := by field_simp
  exact round2_eq_of _ k (by rw [h]; linarith) (by rw [h]; linarith)

theorem TwoDec.round2_eq {q : ℚ} (h : TwoDec q) : round2 q = q := by
  obtain ⟨k, rfl⟩ := h
  exact round2_int_div k

theorem twoDec_round2 (q : ℚ) : TwoDec (round2 q) :=
  ⟨jsRound (q * 100), rfl⟩

theorem TwoDec.sub {a b : ℚ} : TwoDec a → TwoDec b → TwoDec (a - b)
  | ⟨k1, h1⟩, ⟨k2, h2⟩ => ⟨k1 - k2, by rw [h1, h2]; push_cast; ring⟩

theorem twoDec_floor2 (q : ℚ) : TwoDec (floor2 q) :=
  ⟨Rat.floor (q * 100), rfl⟩

/-! ### Transfer engine lemmas -/

theorem find?_id_eq {tasks : List Task} {sid : String} {src : Task}
    (h : tasks.find? (fun t => t.id == sid) = some src) : src.id = sid := by
  have := List.find?_some h
  simpa using this

theorem spliceSource_keep {A : ℚ} {sid : String} {src : Task} {ts : List Task}
    (hfind : ts.find? (fun t => t.id == sid) = some src)
    (hpos : 0 < round2 (src.content - A)) :
    { src with content := round2 (src.content - A) } ∈ spliceSource A sid ts := by
  induction ts with
  | nil => simp at hfind
  | cons t ts ih =>
    by_cases h : (t.id == sid) = true
    · rw [@List.find?_cons_of_pos _ (fun t => t.id == sid) t ts h] at hfind
      injection hfind with he
      subst he
      simp only [spliceSource]
      rw [if_pos h, if_pos hpos]
      exact List.mem_cons_self _ _
    · rw [@List.find?_cons_of_neg _ (fun t => t.id == sid) t ts h] at hfind
      simp only [spliceSource]
      rw [if_neg h]
      exact List.mem_cons_of_mem _ (ih hfind)

theorem spliceSource_del {A : ℚ} {sid : String} {src : Task} {ts : List Task}
    (hfind : ts.find? (fun t => t.id == sid) = some src)
    (hnodup : (ts.map Task.id).Nodup)
    (hnpos : ¬ 0 < round2 (src.content - A)) :
    ∀ t' ∈ spliceSource A sid ts, ¬ t'.id = sid := by
  induction ts with
  | nil => simp [spliceSource]
  | cons t ts ih =>
    rw [List.map_cons, List.nodup_cons] at hnodup
    by_cases h : (t.id == sid) = true
    · rw [@List.find?_cons_of_pos _ (fun t => t.id == sid) t ts h] at hfind
      injection hfind with he
      subst he
      simp only [spliceSource]
      rw [if_pos h, if_neg hnpos]
      intro t' ht' hcontra
      have hts : t'.id ∈ ts.map Task.id := List.mem_map_of_mem _ ht'
      have hti : t.id = sid := by simpa using h
      rw [hcontra, ← hti] at hts
      exact hnodup.1 hts
    · rw [@List.find?_cons_of_neg _ (fun t => t.id == sid) t ts h] at hfind
      simp only [spliceSource]
      rw [if_neg h]
      intro t' ht' hcontra
      rcases List.mem_cons.mp ht' with rfl | ht'
      · simp [hcontra] at h
      · exact ih hfind hnodup.2 t' ht' hcontra

/-- C1: a transfer of `0 < A ≤ S` between exact two-decimal amounts conserves
value: the source survives with amount exactly `S - A` and all other fields
unchanged when `S - A > 0`, is deleted when `S - A = 0`, a new card of amount
`A` appears in the target list, and the remaining amount plus the new amount
is `S`.  Proved for both `db.transferTask` and `localTransferTask`. -/
theorem c1_transfer_conservation
    (tasks : List Task) (src : Task) (sourceId targetColumnId : String)
    (A : ℚ) (dateISO : Option String) (newId nowISO : String)
    (hfind : tasks.find? (fun t => t.id == sourceId) = some src)
    (hnodup : (tasks.map Task.id).Nodup)
    (hS2 : TwoDec src.content) (hA2 : TwoDec A)
    (hApos : 0 < A) (hAle : A ≤ src.content)
    (hnew : newId ≠ sourceId) :
    (∃ res, dbTransferTask tasks sourceId A targetColumnId dateISO newId nowISO = some res ∧
      ((0 < src.content - A → ∃ t' ∈ res, t'.id = sourceId ∧
          t'.content = src.content - A ∧ t'.columnId = src.columnId ∧
          t'.dateISO = src.dateISO ∧ t'.isProjection = src.isProjection) ∧
       (src.content - A = 0 → ∀ t' ∈ res, ¬ t'.id = sourceId) ∧
       (∃ nt ∈ res, nt.id = newId ∧ nt.columnId = targetColumnId ∧ nt.content = A) ∧
       (src.content - A) + A = src.content)) ∧
    ((0 < src.content - A →
        ∃ t' ∈ localTransferTask tasks sourceId A targetColumnId dateISO newId nowISO,
          t'.id = sourceId ∧ t'.content = src.content - A ∧
          t'.columnId = src.columnId ∧ t'.dateISO = src.dateISO ∧
          t'.isProjection = src.isProjection) ∧
     (src.content - A = 0 →
        ∀ t' ∈ localTransferTask tasks sourceId A targetColumnId dateISO newId nowISO,
          ¬ t'.id = sourceId) ∧
     (∃ nt ∈ localTransferTask tasks sourceId A targetColumnId dateISO newId nowISO,
        nt.id = newId ∧ nt.columnId = targetColumnId ∧ nt.content = A)) := by
  have hid : src.id = sourceId := find?_id_eq hfind
  have hmem : src ∈ tasks := List.mem_of_find?_eq_some hfind
  have hrem : round2 (src.content - A) = src.content - A := (hS2.sub hA2).round2_eq
  have hA : round2 A = A := hA2.round2_eq
  constructor
  · simp only [dbTransferTask, hfind]
    refine ⟨_, rfl, ?_, ?_, ?_, ?_⟩
    · intro h0
      rw [hrem, if_neg (not_le.mpr h0)]
      refine ⟨{ src with content := src.content - A }, ?_, ?_⟩
      · apply List.mem_append_left
        apply List.mem_filter_of_mem
        · exact List.mem_map.mpr ⟨src, hmem, by simp [hid]⟩
        · simp [hid, beq_eq_false_iff_ne.mpr (Ne.symm hnew)]
      · simp [hid]
    · intro h0 t' ht'
      rw [hrem, h0, if_pos le_rfl] at ht'
      rcases List.mem_append.mp ht' with h | h
      · have h1 := (List.mem_filter.mp h).1
        have h2 := (List.mem_filter.mp h1).2
        simpa using h2
      · rcases List.mem_singleton.mp h with rfl
        simpa using hnew
    · refine ⟨_, List.mem_append_right _ (List.mem_singleton_self _), rfl, rfl, ?_⟩
      exact hA
    · ring
  · refine ⟨?_, ?_, ?_⟩
    · intro h0
      refine ⟨{ src with content := round2 (src.content - A) }, ?_, ?_⟩
      · exact List.mem_append_left _ (spliceSource_keep hfind (by rw [hrem]; exact h0))
      · simp [hid, hrem]
    · intro h0 t' ht'
      rcases List.mem_append.mp ht' with h | h
      · exact spliceSource_del hfind hnodup (by rw [hrem, h0]; exact lt_irrefl 0) t' h
      · rcases List.mem_singleton.mp h with rfl
        simpa using hnew
    · refine ⟨_, List.mem_append_right _ (List.mem_singleton_self _), rfl, rfl, ?_⟩
      exact hA

/-- Witness for C1: the spec scenario with `S = 100.00` and `A = 40.00`:
after the transfer the source card holds `60.00` and a card of `40.00`
appears in list `B`. -/
theorem c1_transfer_conservation_witness :
    ∃ res, dbTransferTask [(⟨"s", "A", 100, some "d", false⟩ : Task)]
        "s" 40 "B" none "n" "now" = some res ∧
      (∃ t' ∈ res, t'.id = "s" ∧ t'.content = 60) ∧
      (∃ nt ∈ res, nt.id = "n" ∧ nt.columnId = "B" ∧ nt.content = 40) := by
  have h := c1_transfer_conservation
    [(⟨"s", "A", 100, some "d", false⟩ : Task)]
    (⟨"s", "A", 100, some "d", false⟩ : Task)
    "s" "B" 40 none "n" "now"
    (by decide) (by decide)
    ⟨10000, by norm_num⟩ ⟨4000, by norm_num⟩
    (by norm_num) (by norm_num) (by decide)
  obtain ⟨⟨res, hres, hkeep, _, hnew, _⟩, _⟩ := h
  obtain ⟨t', ht', hts, htc, _⟩ := hkeep (by norm_num)
  exact ⟨res, hres, ⟨t', ht', hts, by rw [htc]; norm_num⟩, hnew⟩

/-- C2: the end-to-end transfer submission rejects every amount that is
non-positive, not finite, or greater than the source card's amount, leaving
the board unchanged and issuing no persistence write. -/
theorem c2_transfer_rejection (tasks : List Task) (task : Task) (amt : JsNum)
    (targetId : String) (dateISO : Option String) (newId nowISO : String)
    (h : jsLe amt (.fin 0) = true ∨ amt.isFinite = false ∨
         jsGt amt (.fin task.content) = true) :
    transferSubmit tasks task amt targetId dateISO newId nowISO = (tasks, false) := by
  rw [transferSubmit]
  rcases h with h | h | h
  · rw [if_pos (by simp [h])]
  · rw [if_pos (by simp [h])]
  · by_cases hc : (!amt.isFinite || jsLe amt (.fin 0)) = true
    · rw [if_pos hc]
    · rw [if_neg hc, if_pos h]

/-- Witness for C2: transferring `200.00` out of a card holding `100.00` is
rejected with no state change and no write. -/
theorem c2_transfer_rejection_witness :
    transferSubmit [(⟨"s", "A", 100, some "d", false⟩ : Task)]
      (⟨"s", "A", 100, some "d", false⟩ : Task)
      (.fin 200) "B" none "n" "now" =
      ([(⟨"s", "A", 100, some "d", false⟩ : Task)], false) :=
  c2_transfer_rejection _ _ _ _ _ _ _
    (Or.inr (Or.inr (by simp only [jsGt]; norm_num)))

/-! ### Installment splitter -/

theorem splitAmounts_eq (T : ℚ) (n : ℕ) (hn : 1 ≤ n) (hT : TwoDec T) :
    splitAmounts T n = List.replicate (n - 1) (floor2 (T / (n : ℚ))) ++
      [T - floor2 (T / (n : ℚ)) * ((n : ℚ) - 1)] := by
  obtain ⟨m, rfl⟩ : ∃ m, n = m + 1 := ⟨n - 1, (Nat.succ_pred_eq_of_pos hn).symm⟩
  have hlast : round2 (T - floor2 (T / ((m + 1 : ℕ) : ℚ)) * (((m + 1 : ℕ) : ℚ) - 1))
      = T - floor2 (T / ((m + 1 : ℕ) : ℚ)) * (((m + 1 : ℕ) : ℚ) - 1) := by
    apply TwoDec.round2_eq
    obtain ⟨k, hk⟩ := hT
    obtain ⟨b, hb⟩ := twoDec_floor2 (T / ((m + 1 : ℕ) : ℚ))
    refine ⟨k - b * m, ?_⟩
    rw [hb, hk]
    push_cast
    ring
  simp only [splitAmounts]
  rw [List.range_succ, List.map_append, List.map_singleton]
  congr 1
  · refine List.eq_replicate_iff.mpr ⟨by simp, ?_⟩
    intro b hb
    rcases List.mem_map.mp hb with ⟨i, hi, rfl⟩
    have hilt : i < m + 1 - 1 := by simpa using List.mem_range.mp hi
    rw [if_pos hilt]
  · rw [if_neg (by omega), hlast]

/-- C4: for every exact two-decimal total `T > 0` and month count `n ≥ 1`,
the installment split yields exactly `n` amounts; every amount but the last
is the base `floor2 (T / n)` (the total over the months, rounded down to the
cent), the last is `T - base * (n - 1)`, and the amounts sum to `T` exactly. -/
theorem c4_installment_split (T : ℚ) (n : ℕ) (startY startM endY endM : ℤ)
    (hT : TwoDec T) (hTpos : 0 < T) (hn : 1 ≤ n)
    (hmonths : monthsCountOf startY startM endY endM = (n : ℤ)) :
    computePreview T startY startM endY endM = some (splitAmounts T n) ∧
    (splitAmounts T n).length = n ∧
    (∀ x ∈ (splitAmounts T n).dropLast, x = floor2 (T / (n : ℚ))) ∧
    (splitAmounts T n).getLast? = some (T - floor2 (T / (n : ℚ)) * ((n : ℚ) - 1)) ∧
    (splitAmounts T n).sum = T := by
  have hsplit := splitAmounts_eq T n hn hT
  refine ⟨?_, ?_, ?_, ?_, ?_⟩
  · simp only [computePreview, hmonths]
    rw [if_neg (by exact_mod_cast Nat.not_succ_le_zero 0 ∘ fun h => absurd hn (by omega))]
    · simp
  · rw [hsplit]
    simp only [List.length_append, List.length_replicate, List.length_singleton]
    omega
  · rw [hsplit, List.dropLast_concat]
    exact fun x hx => List.eq_of_mem_replicate hx
  · rw [hsplit, List.getLast?_concat]
  · rw [hsplit, List.sum_append, List.sum_replicate, List.sum_cons, List.sum_nil]
    have hcast : ((n - 1 : ℕ) : ℚ) = (n : ℚ) - 1 := by
      simpa using @Nat.cast_sub ℚ _ 1 n hn
    rw [nsmul_eq_mul, hcast]
    ring

/-- Witness for C4: the spec scenario — a total of `100.00` (10000 minor
units) over the 3 months 2025-01 .. 2025-03 splits into the amounts
`33.33, 33.33, 33.34` (3333, 3333, 3334 minor units), summing to `100.00`. -/
theorem c4_installment_split_witness :
    computePreview 100 2025 1 2025 3 = some (splitAmounts 100 3) ∧
    (splitAmounts 100 3).length = 3 ∧
    (splitAmounts 100 3).sum = 100 ∧
    splitAmounts 100 3 = [3333 / 100, 3333 / 100, 3334 / 100] := by
  have h := c4_installment_split 100 3 2025 1 2025 3
    ⟨10000, by norm_num⟩ (by norm_num) (by norm_num) (by decide)
  refine ⟨h.1, h.2.1, h.2.2.2.2, ?_⟩
  have hbase : floor2 ((100 : ℚ) / ((3 : ℕ) : ℚ)) = 3333 / 100 := by
    rw [floor2, ratFloor_eq_of _ 3333 (by push_cast; norm_num) (by push_cast; norm_num)]
    norm_num
  have hs := splitAmounts_eq 100 3 (by norm_num) ⟨10000, by norm_num⟩
  rw [hs, hbase]
  norm_num [List.replicate]

/-! ### Projection flag of a transferred card -/

/-- C5 amended: the destination card of a `localTransferTask` (fallback
board) always has `isProjection = false`; the destination card of the remote
`db.transferTask` instead inherits the source card's projection flag. -/
theorem c5_projection_flag (ts : List Task) (taskId : String) (A : ℚ)
    (targetColumnId : String) (dateISO : Option String) (newId nowISO : String) :
    (localTransferTask ts taskId A targetColumnId dateISO newId nowISO).getLast? =
      some (⟨newId, targetColumnId, round2 A, some (dateISO.getD nowISO), false⟩ : Task) ∧
    (∀ src, ts.find? (fun t => t.id == taskId) = some src →
      ((dbTransferTask ts taskId A targetColumnId dateISO newId nowISO).getD []).getLast? =
        some (⟨newId, targetColumnId, round2 A, some (dateISO.getD nowISO),
          src.isProjection⟩ : Task)) := by
  constructor
  · rw [localTransferTask, List.getLast?_concat]
  · intro src hfind
    simp only [dbTransferTask, hfind, Option.getD_some]
    rw [List.getLast?_concat]

/-- Witness for C5: transferring `4.00` out of a projection card makes the
fallback board's destination a realized balance (`isProjection = false`) and
the remote path's destination a projection (`isProjection = true`). -/
theorem c5_projection_flag_witness :
    (localTransferTask [(⟨"s", "A", 10, some "d", true⟩ : Task)]
        "s" 4 "B" none "n" "now").getLast? =
      some (⟨"n", "B", 4, some "now", false⟩ : Task) ∧
    ((dbTransferTask [(⟨"s", "A", 10, some "d", true⟩ : Task)]
        "s" 4 "B" none "n" "now").getD []).getLast? =
      some (⟨"n", "B", 4, some "now", true⟩ : Task) := by
  have h := c5_projection_flag [(⟨"s", "A", 10, some "d", true⟩ : Task)]
    "s" 4 "B" none "n" "now"
  have hr : round2 (4 : ℚ) = 4 := TwoDec.round2_eq ⟨400, by norm_num⟩
  have h2 := h.2 (⟨"s", "A", 10, some "d", true⟩ : Task) (by decide)
  rw [hr] at h2
  refine ⟨?_, h2⟩
  have h1 := h.1
  rw [hr] at h1
  exact h1

/-- Counterexample for C5 as stated: in the remote `db.transferTask` path the
destination card of a transfer out of a projection source has
`isProjection = true`, not `false`. -/
theorem c5_projection_flag_counterexample :
    (((dbTransferTask [(⟨"s", "A", 10, some "d", true⟩ : Task)]
        "s" 4 "B" none "n" "now").getD []).getLast?.map Task.isProjection) = some true ∧
    ¬ (((dbTransferTask [(⟨"s", "A", 10, some "d", true⟩ : Task)]
        "s" 4 "B" none "n" "now").getD []).getLast?.map Task.isProjection) = some false := by
  have hfind : List.find? (fun t => t.id == "s")
      [(⟨"s", "A", 10, some "d", true⟩ : Task)] =
      some (⟨"s", "A", 10, some "d", true⟩ : Task) := by decide
  constructor
  · simp only [dbTransferTask, hfind, Option.getD_some]
    rw [List.getLast?_concat]
    rfl
  · simp only [dbTransferTask, hfind, Option.getD_some]
    rw [List.getLast?_concat]
    simp

/-! ### Two-decimal amounts (C3) -/

/-- C3 amended: every amount the board stores or transmits is an exact
two-decimal currency-unit value — `round2` (or `floor2`) is applied at every
write, and two-decimality is preserved by `db.transferTask`, the installment
splitter and the fallback `addTask` — but these amounts are currency-unit
numbers, not integer counts of minor units. -/
theorem c3_two_decimal_amounts :
    (∀ a : ℚ, TwoDec (addTaskContent a)) ∧
    (∀ (T : ℚ) (n : ℕ), ∀ x ∈ splitAmounts T n, TwoDec x) ∧
    (∀ (ts : List Task) (sid : String) (A : ℚ) (tgt : String)
       (dISO : Option String) (nid nowISO : String) (res : List Task),
      (∀ t ∈ ts, TwoDec t.content) →
      dbTransferTask ts sid A tgt dISO nid nowISO = some res →
      ∀ t ∈ res, TwoDec t.content) ∧
    (∀ (s : BoardState) (cid : String) (a : JsNum) (d : Option String)
       (p : Bool) (nid nowISO : String) (ok : Bool),
      (∀ t ∈ s.tasks, TwoDec t.content) →
      ∀ t ∈ (mAddTask s cid a d p nid nowISO ok).1.tasks, TwoDec t.content) := by
  refine ⟨fun a => twoDec_round2 a, ?_, ?_, ?_⟩
  · intro T n x hx
    simp only [splitAmounts] at hx
    rcases List.mem_map.mp hx with ⟨i, _, rfl⟩
    by_cases hi : i < n - 1
    · rw [if_pos hi]
      exact twoDec_floor2 _
    · rw [if_neg hi]
      exact twoDec_round2 _
  · intro ts sid A tgt dISO nid nowISO res hts hres
    cases hfind : ts.find? (fun t => t.id == sid) with
    | none => rw [dbTransferTask, hfind] at hres; exact absurd hres (by simp)
    | some src =>
      simp only [dbTransferTask, hfind, Option.some.injEq] at hres
      subst hres
      intro t ht
      rcases List.mem_append.mp ht with h | h
      · have h1 := (List.mem_filter.mp h).1
        split_ifs at h1 with hc
        · exact hts t (List.mem_filter.mp h1).1
        · rcases List.mem_map.mp h1 with ⟨t0, ht0, rfl⟩
          by_cases ht0id : (t0.id == sid) = true
          · rw [if_pos ht0id]
            exact twoDec_round2 _
          · rw [if_neg ht0id]
            exact hts t0 ht0
      · rcases List.mem_singleton.mp h with rfl
        exact twoDec_round2 _
  · intro s cid a d p nid nowISO ok hts t ht
    rw [mAddTask] at ht
    split_ifs at ht with h1 h2 h3
    · exact hts t ht
    · simp only [localAddTask, List.mem_append, List.mem_singleton] at ht
      rcases ht with h | rfl
      · exact hts t h
      · exact twoDec_round2 _
    · exact hts t ht
    · simp only [localAddTask, enterTestMode, List.nil_append,
        List.mem_singleton] at ht
      subst ht
      exact twoDec_round2 _

/-- Witness for C3 amended: the fallback `addTask` on an empty board leaves
only two-decimal amounts in the snapshot. -/
theorem c3_two_decimal_amounts_witness :
    ∀ t ∈ (mAddTask ⟨false, [], []⟩ "c" (.fin 5) none false "n" "now" true).1.tasks,
      TwoDec t.content :=
  c3_two_decimal_amounts.2.2.2 ⟨false, [], []⟩ "c" (.fin 5) none false "n" "now" true
    (by simp)

/-- Counterexample for C3 as stated: the card amount parsed from `"0,50"` and
stored by `addTask` is the currency-unit value `0.5` — not an integer, hence
not an integer count of minor units (which would be `50`). -/
theorem c3_counterexample :
    parseCurrencyInput "0,50".toList = some (1 / 2) ∧
    addTaskContent (1 / 2) = 1 / 2 ∧
    ¬ ∃ k : ℤ, ((1 / 2 : ℚ)) = (k : ℚ) := by
  refine ⟨?_, TwoDec.round2_eq ⟨50, by norm_num⟩, ?_⟩
  · have hp : parseParts (normalizeSeps (jsTrim "0,50".toList)) = some (0, 50) := by decide
    have hlen : ¬ (jsTrim "0,50".toList).length = 0 := by decide
    rw [parseCurrencyInput]
    simp only [hlen, if_false, parseNormalized, hp, Option.map_some']
    have hv : ((0 : ℕ) : ℚ) + ((50 : ℕ) : ℚ) / 100 = ((50 : ℤ) : ℚ) / 100 := by
      push_cast
      norm_num
    rw [hv, round2_int_div]
    norm_num
  · rintro ⟨k, hk⟩
    have h2 : (2 : ℚ) * (k : ℚ) = 1 := by rw [← hk]; norm_num
    have h3 : (2 : ℤ) * k = 1 := by exact_mod_cast h2
    omega

/-! ### Atomicity of persistence writes (C6) -/

theorem splitAmounts_pos (T : ℚ) (n : ℕ) (hn : 1 ≤ n) (hT : TwoDec T)
    (hTn : ((n : ℕ) : ℚ) ≤ T * 100) : ∀ x ∈ splitAmounts T n, 0 < x := by
  obtain ⟨k, rfl⟩ := hT
  have hn0 : (0 : ℚ) < ((n : ℕ) : ℚ) := by
    exact_mod_cast Nat.pos_of_ne_zero (by omega)
  have hk : ((n : ℕ) : ℚ) ≤ (k : ℚ) := by
    calc ((n : ℕ) : ℚ) ≤ (k : ℚ) / 100 * 100 := hTn
    _ = (k : ℚ) := by field_simp
  have harg : (k : ℚ) / 100 / ((n : ℕ) : ℚ) * 100 = (k : ℚ) / ((n : ℕ) : ℚ) := by
    field_simp
    ring
  have hfl : (1 : ℤ) ≤ Rat.floor ((k : ℚ) / ((n : ℕ) : ℚ)) := by
    rw [ratFloor_eq_floor, Int.le_floor]
    rw [le_div_iff₀ hn0]
    push_cast
    linarith
  have hb1 : (1 : ℚ) ≤ ((Rat.floor ((k : ℚ) / ((n : ℕ) : ℚ)) : ℤ) : ℚ) := by
    exact_mod_cast hfl
  have hble : ((Rat.floor ((k : ℚ) / ((n : ℕ) : ℚ)) : ℤ) : ℚ) * ((n : ℕ) : ℚ) ≤ (k : ℚ) := by
    have h1 : ((Rat.floor ((k : ℚ) / ((n : ℕ) : ℚ)) : ℤ) : ℚ) ≤ (k : ℚ) / ((n : ℕ) : ℚ) := by
      rw [ratFloor_eq_floor]
      exact Int.floor_le _
    calc ((Rat.floor ((k : ℚ) / ((n : ℕ) : ℚ)) : ℤ) : ℚ) * ((n : ℕ) : ℚ)
        ≤ (k : ℚ) / ((n : ℕ) : ℚ) * ((n : ℕ) : ℚ) :=
          mul_le_mul_of_nonneg_right h1 (le_of_lt hn0)
    _ = (k : ℚ) := by field_simp
  have hbase : floor2 ((k : ℚ) / 100 / ((n : ℕ) : ℚ)) =
      ((Rat.floor ((k : ℚ) / ((n : ℕ) : ℚ)) : ℤ) : ℚ) / 100 := by
    rw [floor2, harg]
  intro x hx
  rw [splitAmounts_eq ((k : ℚ) / 100) n hn ⟨k, rfl⟩] at hx
  rcases List.mem_append.mp hx with h | h
  · rw [List.eq_of_mem_replicate h, hbase]
    linarith
  · rw [List.mem_singleton.mp h, hbase]
    have hexp : ((Rat.floor ((k : ℚ) / ((n : ℕ) : ℚ)) : ℤ) : ℚ) / 100 * (((n : ℕ) : ℚ) - 1) =
        (((Rat.floor ((k : ℚ) / ((n : ℕ) : ℚ)) : ℤ) : ℚ) * ((n : ℕ) : ℚ) -
          ((Rat.floor ((k : ℚ) / ((n : ℕ) : ℚ)) : ℤ) : ℚ)) / 100 := by
      ring
    rw [hexp, div_sub_div_same]
    apply div_pos
    · linarith
    · norm_num

/-- C6 amended: `db.transferTask` is submitted as one single multi-path
`update` covering both the source entry and the new destination entry; but
`createProjections` is submitted as `monthsCount` independent single-entity
`set` calls (one `db.addTask` per installment), not as one atomic
multi-entity update. -/
theorem c6_atomicity (tasks : List Task) (sid : String) (A : ℚ) (nid : String)
    (src : Task) (T : ℚ) (startY startM endY endM : ℤ) (idGen : ℕ → String)
    (n : ℕ)
    (hfind : tasks.find? (fun t => t.id == sid) = some src)
    (hmonths : monthsCountOf startY startM endY endM = (n : ℤ))
    (hn : 1 ≤ n) (hT : TwoDec T) (hTn : ((n : ℕ) : ℚ) ≤ T * 100) :
    (∃ ps, dbTransferTaskWrites tasks sid A nid = [DbWrite.updateRoot ps] ∧
      ("tasks/" ++ sid ∈ ps ∨ "tasks/" ++ sid ++ "/content" ∈ ps) ∧
      "tasks/" ++ nid ∈ ps) ∧
    (createProjectionsWrites T startY startM endY endM idGen).length = n ∧
    (∀ w ∈ createProjectionsWrites T startY startM endY endM idGen,
      ∃ p, w = DbWrite.setPath p) := by
  have hpos := splitAmounts_pos T n hn hT hTn
  have hn0 : ¬ (n : ℤ) ≤ 0 := by
    omega
  have hwr : createProjectionsWrites T startY startM endY endM idGen =
      ((splitAmounts T n).enum.filter (fun p => !decide (p.2 ≤ 0))).map
        (fun p => DbWrite.setPath ("tasks/" ++ idGen p.1)) := by
    simp only [createProjectionsWrites, hmonths]
    rw [if_neg hn0, Int.toNat_natCast]
  have hfilter : ((splitAmounts T n).enum.filter (fun p => !decide (p.2 ≤ 0))) =
      (splitAmounts T n).enum := by
    apply List.filter_eq_self.mpr
    intro p hp
    obtain ⟨i, x⟩ := p
    have hmem : x ∈ splitAmounts T n := by
      rw [List.enum_eq_zip_range] at hp
      exact (List.of_mem_zip hp).2
    simp [not_le.mpr (hpos _ hmem)]
  refine ⟨?_, ?_, ?_⟩
  · simp only [dbTransferTaskWrites, hfind]
    by_cases hc : round2 (src.content - A) ≤ 0
    · rw [if_pos hc]
      exact ⟨_, rfl, Or.inl (by simp), by simp⟩
    · rw [if_neg hc]
      exact ⟨_, rfl, Or.inr (by simp), by simp⟩
  · rw [hwr, hfilter]
    simp [splitAmounts]
  · intro w hw
    rw [hwr] at hw
    rcases List.mem_map.mp hw with ⟨p, _, rfl⟩
    exact ⟨_, rfl⟩

/-- Witness for C6 amended: a transfer out of a one-card board issues one
multi-path update; a three-month projection of `100.00` issues three
single-entity writes. -/
theorem c6_atomicity_witness :
    (∃ ps, dbTransferTaskWrites [(⟨"s", "A", 100, some "d", false⟩ : Task)]
        "s" 40 "n" = [DbWrite.updateRoot ps] ∧
      ("tasks/" ++ "s" ∈ ps ∨ "tasks/" ++ "s" ++ "/content" ∈ ps) ∧
      "tasks/" ++ "n" ∈ ps) ∧
    (createProjectionsWrites 100 2025 1 2025 3 (fun _ => "p")).length = 3 := by
  have h := c6_atomicity [(⟨"s", "A", 100, some "d", false⟩ : Task)] "s" 40 "n"
    (⟨"s", "A", 100, some "d", false⟩ : Task) 100 2025 1 2025 3 (fun _ => "p") 3
    (by decide) (by decide) (by norm_num) ⟨10000, by norm_num⟩ (by push_cast; norm_num)
  exact ⟨h.1, h.2.1⟩

/-- Counterexample for C6 as stated: creating installments for `100.00` over
the two months 2025-01 .. 2025-02 issues two persistence calls, not one
single atomic multi-entity update. -/
theorem c6_atomicity_counterexample :
    (createProjectionsWrites 100 2025 1 2025 2 (fun _ => "p")).length = 2 ∧
    ¬ (createProjectionsWrites 100 2025 1 2025 2 (fun _ => "p")).length = 1 := by
  have hbase : floor2 ((100 : ℚ) / ((2 : ℕ) : ℚ)) = 50 := by
    rw [floor2, ratFloor_eq_of _ 5000 (by push_cast; norm_num) (by push_cast; norm_num)]
    norm_num
  have hlast : round2 ((100 : ℚ) - 50 * (((2 : ℕ) : ℚ) - 1)) = 50 := by
    have hv : ((100 : ℚ) - 50 * (((2 : ℕ) : ℚ) - 1)) = ((5000 : ℤ) : ℚ) / 100 := by
      push_cast
      norm_num
    rw [hv, round2_int_div]
    norm_num
  have hsplit : splitAmounts 100 2 = [50, 50] := by
    rw [splitAmounts_eq 100 2 (by norm_num) ⟨10000, by norm_num⟩, hbase]
    rw [show ((100 : ℚ) - 50 * (((2 : ℕ) : ℚ) - 1)) = 50 from by push_cast; norm_num]
    rfl
  have hw : createProjectionsWrites 100 2025 1 2025 2 (fun _ => "p") =
      (([(50 : ℚ), 50]).enum.filter (fun p => !decide (p.2 ≤ 0))).map
        (fun p => DbWrite.setPath ("tasks/" ++ (fun _ => "p") p.1)) := by
    simp only [createProjectionsWrites, monthsCountOf]
    norm_num
    rw [show ((2 : ℤ)).toNat = 2 from rfl, hsplit]
  rw [hw]
  constructor
  · decide
  · decide

/-! ### Fallback mode (C7, C8) -/

/-- C7: once the fallback (test) mode flag is set it is never cleared, and no
operation of the fallback board — add/remove list, add/remove/edit card,
transfer, toggle projection, column reorder, or the drag list-reassignment —
issues any remote persistence call; each is served from the local snapshot. -/
theorem c7_fallback_no_remote (s : BoardState) (h : s.testMode = true) :
    (∀ title nid ok, (mAddColumn s title nid ok).2 = [] ∧
      (mAddColumn s title nid ok).1.testMode = true) ∧
    (∀ id ok, (mRemoveColumn s id ok).2 = [] ∧
      (mRemoveColumn s id ok).1.testMode = true) ∧
    (∀ cid a d p nid nowISO ok, (mAddTask s cid a d p nid nowISO ok).2 = [] ∧
      (mAddTask s cid a d p nid nowISO ok).1.testMode = true) ∧
    (∀ tid ok, (mRemoveTask s tid ok).2 = [] ∧
      (mRemoveTask s tid ok).1.testMode = true) ∧
    (∀ tid a tgt d nid nowISO ok, (mTransferTask s tid a tgt d nid nowISO ok).2 = [] ∧
      (mTransferTask s tid a tgt d nid nowISO ok).1.testMode = true) ∧
    (∀ tid ok, (mToggleProjection s tid ok).2 = [] ∧
      (mToggleProjection s tid ok).1.testMode = true) ∧
    (∀ tid a d p nowISO ok, (mEditTask s tid a d p nowISO ok).2 = [] ∧
      (mEditTask s tid a d p nowISO ok).1.testMode = true) ∧
    (∀ ord ok, (mUpdateColumnsOrder s ord ok).2 = [] ∧
      (mUpdateColumnsOrder s ord ok).1.testMode = true) ∧
    (∀ tid tgt d ok, (updateTaskColumnOp s tid tgt d ok).2 = [] ∧
      (updateTaskColumnOp s tid tgt d ok).1.testMode = true) := by
  refine ⟨?_, ?_, ?_, ?_, ?_, ?_, ?_, ?_, ?_⟩
  · intro title nid ok
    rw [mAddColumn, if_pos h]
    exact ⟨rfl, by simp [localAddColumn, h]⟩
  · intro id ok
    rw [mRemoveColumn, if_pos h]
    exact ⟨rfl, by simp [localRemoveColumn, h]⟩
  · intro cid a d p nid nowISO ok
    rw [mAddTask]
    by_cases hg : (a.isNaN || jsLe a (.fin 0)) = true
    · rw [if_pos hg]
      exact ⟨rfl, h⟩
    · rw [if_neg hg, if_pos h]
      exact ⟨rfl, by simp [localAddTask, h]⟩
  · intro tid ok
    rw [mRemoveTask, if_pos h]
    exact ⟨rfl, by simp [localRemoveTask, h]⟩
  · intro tid a tgt d nid nowISO ok
    rw [mTransferTask]
    by_cases hg : (a.isNaN || jsLe a (.fin 0)) = true
    · rw [if_pos hg]
      exact ⟨rfl, h⟩
    · rw [if_neg hg, if_pos h]
      exact ⟨rfl, h⟩
  · intro tid ok
    rw [mToggleProjection, if_pos h]
    exact ⟨rfl, by simp [localEditTask, h]⟩
  · intro tid a d p nowISO ok
    rw [mEditTask]
    by_cases hg : (a.isNaN || jsLe a (.fin 0)) = true
    · rw [if_pos hg]
      exact ⟨rfl, h⟩
    · rw [if_neg hg, if_pos h]
      exact ⟨rfl, by simp [localEditTask, h]⟩
  · intro ord ok
    rw [mUpdateColumnsOrder, if_pos h]
    exact ⟨rfl, by simp [localUpdateColumnsOrder, h]⟩
  · intro tid tgt d ok
    rw [updateTaskColumnOp, if_pos h]
    exact ⟨rfl, by simp [localEditTask, h]⟩

/-- Witness for C7: on a concrete fallback-mode state, an add-column, a
transfer and a column reorder all issue no remote call and leave the flag
set. -/
theorem c7_fallback_no_remote_witness :
    (mAddColumn ⟨true, [], []⟩ "t" "c9" true).2 = [] ∧
    (mAddColumn ⟨true, [], []⟩ "t" "c9" true).1.testMode = true ∧
    (mTransferTask ⟨true, [], []⟩ "x" (.fin 5) "B" none "n" "now" true).2 = [] ∧
    (mUpdateColumnsOrder ⟨true, [], []⟩ ["c1"] false).2 = [] := by
  have h := c7_fallback_no_remote ⟨true, [], []⟩ rfl
  exact ⟨(h.1 "t" "c9" true).1, (h.1 "t" "c9" true).2,
    (h.2.2.2.2.1 "x" (.fin 5) "B" none "n" "now" true).1,
    (h.2.2.2.2.2.2.2.1 ["c1"] false).1⟩

/-- C8 amended: when a remote `addTask` call fails on a board not yet in
fallback mode, the manager enters fallback mode and re-applies the triggering
mutation locally, so the new card is present and the edit is not lost; but
`enterTestMode` unconditionally resets the snapshot to the three default
lists and an empty card set, so the lists and cards held before the failure
are discarded, and the default lists are seeded even when lists already
exist. -/
theorem c8_failure_fallback (s : BoardState) (cid : String) (a : JsNum)
    (d : Option String) (p : Bool) (nid nowISO : String)
    (hmode : s.testMode = false)
    (hg : (a.isNaN || jsLe a (.fin 0)) = false) :
    (mAddTask s cid a d p nid nowISO false).1.testMode = true ∧
    (mAddTask s cid a d p nid nowISO false).1.columns = DEFAULT_COLUMNS ∧
    (mAddTask s cid a d p nid nowISO false).1.tasks =
      [⟨nid, cid, round2 a.q, some (d.getD nowISO), p⟩] ∧
    (mAddTask s cid a d p nid nowISO false).2 =
      [.addTaskC cid (round2 a.q) (d.getD nowISO) p] := by
  rw [mAddTask, if_neg (by simp [hg]), if_neg (by simp [hmode]),
    if_neg (by simp)]
  refine ⟨rfl, rfl, ?_, rfl⟩
  simp [localAddTask, enterTestMode]

/-- Witness for C8 amended: a concrete failing `addTask` on a non-fallback
board with one column and one card. -/
theorem c8_failure_fallback_witness :
    (mAddTask ⟨false, [(⟨"colX", "X"⟩ : Column)],
        [(⟨"t0", "colX", 7, some "d", false⟩ : Task)]⟩
      "colX" (.fin 5) none false "tNew" "now" false).1.testMode = true ∧
    (mAddTask ⟨false, [(⟨"colX", "X"⟩ : Column)],
        [(⟨"t0", "colX", 7, some "d", false⟩ : Task)]⟩
      "colX" (.fin 5) none false "tNew" "now" false).1.tasks =
      [(⟨"tNew", "colX", 5, some "now", false⟩ : Task)] := by
  have h := c8_failure_fallback ⟨false, [(⟨"colX", "X"⟩ : Column)],
      [(⟨"t0", "colX", 7, some "d", false⟩ : Task)]⟩
    "colX" (.fin 5) none false "tNew" "now" rfl (by decide)
  refine ⟨h.1, ?_⟩
  rw [h.2.2.1]
  have hr : round2 ((JsNum.fin 5).q) = 5 := by
    rw [show (JsNum.fin 5).q = ((500 : ℤ) : ℚ) / 100 from by norm_num [JsNum.q],
      round2_int_div]
    norm_num
  rw [hr]
  rfl

/-- Counterexample for C8 as stated: after the failing `addTask`, the column
`colX` and the card `t0` that the snapshot held before the failure are gone —
the transition discards pre-existing lists and cards, and seeds the default
lists even though a list already existed. -/
theorem c8_failure_fallback_counterexample :
    (⟨"t0", "colX", 7, some "d", false⟩ : Task) ∉
      (mAddTask ⟨false, [(⟨"colX", "X"⟩ : Column)],
          [(⟨"t0", "colX", 7, some "d", false⟩ : Task)]⟩
        "colX" (.fin 5) none false "tNew" "now" false).1.tasks ∧
    (⟨"colX", "X"⟩ : Column) ∉
      (mAddTask ⟨false, [(⟨"colX", "X"⟩ : Column)],
          [(⟨"t0", "colX", 7, some "d", false⟩ : Task)]⟩
        "colX" (.fin 5) none false "tNew" "now" false).1.columns := by
  rw [mAddTask, if_neg (by decide), if_neg (by simp), if_neg (by simp)]
  constructor
  · simp [localAddTask, enterTestMode, Task.mk.injEq]
  · simp [localAddTask, enterTestMode, DEFAULT_COLUMNS, Column.mk.injEq]

/-! ### Currency parser (C9) -/

theorem dropWhile_eq_self_of {p : Char → Bool} {l : List Char}
    (h : ∀ c ∈ l, p c = false) : l.dropWhile p = l := by
  cases l with
  | nil => rfl
  | cons x xs =>
    rw [List.dropWhile_cons, h x (List.mem_cons_self x xs)]
    simp

theorem jsTrim_eq_self {l : List Char} (h : ∀ c ∈ l, isWsChar c = false) :
    jsTrim l = l := by
  rw [jsTrim, dropWhile_eq_self_of h,
    dropWhile_eq_self_of (fun c hc => h c (List.mem_reverse.mp hc))]
  exact List.reverse_reverse l

theorem containsChar_iff {l : List Char} {c : Char} :
    containsChar l c = true ↔ c ∈ l := by
  simp [containsChar]

theorem wsFree_map_commaToDot {l : List Char} (h : ∀ c ∈ l, isWsChar c = false) :
    ∀ c ∈ l.map commaToDot, isWsChar c = false := by
  intro c hc
  rcases List.mem_map.mp hc with ⟨c0, hc0, rfl⟩
  by_cases h0 : c0 = ','
  · subst h0
    decide
  · rw [commaToDot, if_neg h0]
    exact h c0 hc0

theorem wsFree_filter {p : Char → Bool} {l : List Char}
    (h : ∀ c ∈ l, isWsChar c = false) : ∀ c ∈ l.filter p, isWsChar c = false :=
  fun c hc => h c (List.mem_of_mem_filter hc)

theorem containsChar_map_commaToDot (l : List Char) :
    containsChar (l.map commaToDot) ',' = false := by
  simp only [containsChar, List.any_map]
  rw [List.any_eq_false]
  intro c _
  by_cases h0 : c = ','
  · subst h0
    decide
  · simp [Function.comp, commaToDot, h0]

/-- The only-comma separator rule: with a lone comma as the only separator,
the input parses exactly like its dot-decimal spelling. -/
theorem parse_only_comma (l : List Char)
    (hw : ∀ c ∈ l, isWsChar c = false)
    (hc : containsChar l ',' = true) (hd : containsChar l '.' = false) :
    parseCurrencyInput l = parseCurrencyInput (l.map commaToDot) := by
  have hmem : ',' ∈ l := containsChar_iff.mp hc
  have hlne : l ≠ [] := List.ne_nil_of_mem hmem
  have hwm := wsFree_map_commaToDot hw
  have hmne : l.map commaToDot ≠ [] := by
    intro h'
    exact hlne (List.map_eq_nil_iff.mp h')
  rw [parseCurrencyInput, parseCurrencyInput]
  rw [jsTrim_eq_self hw, jsTrim_eq_self hwm]
  rw [if_neg (by simpa [List.length_eq_zero] using hlne),
    if_neg (by simpa [List.length_eq_zero] using hmne)]
  congr 1
  simp [normalizeSeps, hc, hd, containsChar_map_commaToDot]

/-- The both-separators rule with the comma last: the dots are stripped as
thousands separators and the comma becomes the decimal dot, so the input
parses exactly like that normalized spelling. -/
theorem parse_both_comma_last (l : List Char)
    (hw : ∀ c ∈ l, isWsChar c = false)
    (hc : containsChar l ',' = true) (hd : containsChar l '.' = true)
    (hlast : lastIndexOfChar l ',' > lastIndexOfChar l '.') :
    parseCurrencyInput l = parseCurrencyInput
      ((l.filter (fun c => !(c == '.'))).map commaToDot) := by
  have hmem : ',' ∈ l := containsChar_iff.mp hc
  have hlne : l ≠ [] := List.ne_nil_of_mem hmem
  have hw' : ∀ c ∈ (l.filter (fun c => !(c == '.'))).map commaToDot,
      isWsChar c = false :=
    wsFree_map_commaToDot (wsFree_filter hw)
  have hmem' : '.' ∈ (l.filter (fun c => !(c == '.'))).map commaToDot := by
    refine List.mem_map.mpr ⟨',', ?_, by decide⟩
    exact List.mem_filter_of_mem hmem (by decide)
  have hlne' : (l.filter (fun c => !(c == '.'))).map commaToDot ≠ [] :=
    List.ne_nil_of_mem hmem'
  rw [parseCurrencyInput, parseCurrencyInput]
  rw [jsTrim_eq_self hw, jsTrim_eq_self hw']
  rw [if_neg (by simpa [List.length_eq_zero] using hlne),
    if_neg (by simpa [List.length_eq_zero] using hlne')]
  congr 1
  simp only [normalizeSeps, hc, hd, containsChar_map_commaToDot,
    Bool.true_and, Bool.false_and, if_true, if_false, Bool.and_self]
  rw [if_pos hlast]
  simp

/-- C9: the separator rule of `parseCurrencyInput` — when both `.` and `,`
appear, the one appearing last is the decimal separator and the other is
stripped; a lone comma is the decimal separator — so the equivalent spellings
`"1.234,56"`/`"1234.56"` and `"500"`/`"500,00"` parse to the same exact
amounts (123456 and 50000 minor units). -/
theorem c9_parse_separator_rule :
    (∀ l : List Char, (∀ c ∈ l, isWsChar c = false) →
      containsChar l ',' = true → containsChar l '.' = false →
      parseCurrencyInput l = parseCurrencyInput (l.map commaToDot)) ∧
    (∀ l : List Char, (∀ c ∈ l, isWsChar c = false) →
      containsChar l ',' = true → containsChar l '.' = true →
      lastIndexOfChar l ',' > lastIndexOfChar l '.' →
      parseCurrencyInput l = parseCurrencyInput
        ((l.filter (fun c => !(c == '.'))).map commaToDot)) ∧
    parseCurrencyInput "1.234,56".toList = some (123456 / 100) ∧
    parseCurrencyInput "1234.56".toList = some (123456 / 100) ∧
    parseCurrencyInput "500".toList = some 500 ∧
    parseCurrencyInput "500,00".toList = some 500 := by
  refine ⟨parse_only_comma, parse_both_comma_last, ?_, ?_, ?_, ?_⟩
  · have hp : parseParts (normalizeSeps (jsTrim "1.234,56".toList)) = some (1234, 56) := by
      decide
    have hlen : ¬ (jsTrim "1.234,56".toList).length = 0 := by decide
    rw [parseCurrencyInput]
    simp only [hlen, if_false, parseNormalized, hp, Option.map_some']
    rw [show ((1234 : ℕ) : ℚ) + ((56 : ℕ) : ℚ) / 100 = ((123456 : ℤ) : ℚ) / 100 from by
      push_cast; norm_num, round2_int_div]
    norm_num
  · have hp : parseParts (normalizeSeps (jsTrim "1234.56".toList)) = some (1234, 56) := by
      decide
    have hlen : ¬ (jsTrim "1234.56".toList).length = 0 := by decide
    rw [parseCurrencyInput]
    simp only [hlen, if_false, parseNormalized, hp, Option.map_some']
    rw [show ((1234 : ℕ) : ℚ) + ((56 : ℕ) : ℚ) / 100 = ((123456 : ℤ) : ℚ) / 100 from by
      push_cast; norm_num, round2_int_div]
    norm_num
  · have hp : parseParts (normalizeSeps (jsTrim "500".toList)) = some (500, 0) := by
      decide
    have hlen : ¬ (jsTrim "500".toList).length = 0 := by decide
    rw [parseCurrencyInput]
    simp only [hlen, if_false, parseNormalized, hp, Option.map_some']
    rw [show ((500 : ℕ) : ℚ) + ((0 : ℕ) : ℚ) / 100 = ((50000 : ℤ) : ℚ) / 100 from by
      push_cast; norm_num, round2_int_div]
    norm_num
  · have hp : parseParts (normalizeSeps (jsTrim "500,00".toList)) = some (500, 0) := by
      decide
    have hlen : ¬ (jsTrim "500,00".toList).length = 0 := by decide
    rw [parseCurrencyInput]
    simp only [hlen, if_false, parseNormalized, hp, Option.map_some']
    rw [show ((500 : ℕ) : ℚ) + ((0 : ℕ) : ℚ) / 100 = ((50000 : ℤ) : ℚ) / 100 from by
      push_cast; norm_num, round2_int_div]
    norm_num

/-- Witness for C9: applying the separator rules to concrete inputs, the
grouped spelling parses like the plain dot-decimal spelling. -/
theorem c9_parse_separator_rule_witness :
    parseCurrencyInput "1.234,56".toList = parseCurrencyInput "1234.56".toList ∧
    parseCurrencyInput "500,00".toList = parseCurrencyInput "500.00".toList := by
  constructor
  · have h2 := c9_parse_separator_rule.2.1 ("1.234,56".toList)
      (by decide) (by decide) (by decide) (by decide)
    rw [h2, show (("1.234,56".toList.filter (fun c => !(c == '.'))).map commaToDot) =
      "1234.56".toList from by decide]
  · have h1 := c9_parse_separator_rule.1 ("500,00".toList)
      (by decide) (by decide) (by decide)
    rw [h1, show ("500,00".toList.map commaToDot) = "500.00".toList from by decide]

/-! ### Drag list-reassignment (C10) -/

/-- C10 amended: dragging a card over a card of another list, or over a list,
reassigns the card — its `columnId` becomes the target list's id, committed
as a persisted `db.editTask` call.  In `src/components/KanbanBoard.tsx` the
card's `dateISO` is refreshed to now; in the fallback-capable variant the
card keeps its own `dateISO` and only defaults to now when it has none, and
outside fallback mode the patch is issued as a remote `editTask` call. -/
theorem c10_drag_reassign :
    (∀ (activeId overId : String) (tAct tOv : Task) (nowISO : String),
      ¬ activeId = overId → ¬ tOv.columnId = tAct.columnId →
      onDragOverEditMain activeId overId (.task tAct) (.task tOv) nowISO =
        [.editTaskC activeId ⟨none, some (some nowISO), some tOv.columnId, none⟩]) ∧
    (∀ (activeId overId : String) (tAct : Task) (c : Column) (nowISO : String),
      ¬ activeId = overId →
      onDragOverEditMain activeId overId (.task tAct) (.column c) nowISO =
        [.editTaskC activeId ⟨none, some (some nowISO), some overId, none⟩]) ∧
    (∀ (activeId overId : String) (tAct tOv : Task) (nowISO : String),
      ¬ activeId = overId → ¬ tOv.columnId = tAct.columnId →
      onDragOverPatchLocalVariant activeId overId (.task tAct) (.task tOv) nowISO =
        some (activeId,
          ⟨none, some (some (tAct.dateISO.getD nowISO)), some tOv.columnId, none⟩)) ∧
    (∀ (activeId overId : String) (tAct : Task) (c : Column) (nowISO : String),
      ¬ activeId = overId →
      onDragOverPatchLocalVariant activeId overId (.task tAct) (.column c) nowISO =
        some (activeId,
          ⟨none, some (some (tAct.dateISO.getD nowISO)), some overId, none⟩)) ∧
    (∀ (s : BoardState) (tid tgt : String) (d : Option String),
      s.testMode = false →
      (updateTaskColumnOp s tid tgt d true).2 =
        [.editTaskC tid ⟨none, d.map some, some tgt, none⟩]) := by
  refine ⟨?_, ?_, ?_, ?_, ?_⟩
  · intro activeId overId tAct tOv nowISO hne hcol
    rw [onDragOverEditMain, if_neg hne]
    simp [beq_eq_false_iff_ne.mpr hcol]
  · intro activeId overId tAct c nowISO hne
    rw [onDragOverEditMain, if_neg hne]
  · intro activeId overId tAct tOv nowISO hne hcol
    rw [onDragOverPatchLocalVariant, if_neg hne]
    simp [beq_eq_false_iff_ne.mpr hcol]
  · intro activeId overId tAct c nowISO hne
    rw [onDragOverPatchLocalVariant, if_neg hne]
  · intro s tid tgt d hmode
    rw [updateTaskColumnOp, if_neg (by simp [hmode]), if_pos rfl]

/-- Witness for C10 amended: a concrete cross-list drag — in the main board
the edit carries the fresh timestamp; in the fallback-capable variant the
card's own timestamp is carried; outside fallback the patch goes out as a
remote `editTask` call. -/
theorem c10_drag_reassign_witness :
    onDragOverEditMain "t1" "colB"
      (.task (⟨"t1", "colA", 50, some "2025-11-01T12:00:00.000Z", false⟩ : Task))
      (.column (⟨"colB", "B"⟩ : Column)) "2025-12-31T00:00:00.000Z" =
      [.editTaskC "t1" ⟨none, some (some "2025-12-31T00:00:00.000Z"), some "colB", none⟩] ∧
    onDragOverPatchLocalVariant "t1" "colB"
      (.task (⟨"t1", "colA", 50, some "2025-11-01T12:00:00.000Z", false⟩ : Task))
      (.column (⟨"colB", "B"⟩ : Column)) "2025-12-31T00:00:00.000Z" =
      some ("t1", ⟨none, some (some "2025-11-01T12:00:00.000Z"), some "colB", none⟩) ∧
    (updateTaskColumnOp ⟨false, [], []⟩ "t1" "colB"
        (some "2025-11-01T12:00:00.000Z") true).2 =
      [.editTaskC "t1" ⟨none, some (some "2025-11-01T12:00:00.000Z"), some "colB", none⟩] := by
  refine ⟨?_, ?_, ?_⟩
  · exact c10_drag_reassign.2.1 "t1" "colB"
      (⟨"t1", "colA", 50, some "2025-11-01T12:00:00.000Z", false⟩ : Task)
      (⟨"colB", "B"⟩ : Column) "2025-12-31T00:00:00.000Z" (by decide)
  · exact c10_drag_reassign.2.2.2.1 "t1" "colB"
      (⟨"t1", "colA", 50, some "2025-11-01T12:00:00.000Z", false⟩ : Task)
      (⟨"colB", "B"⟩ : Column) "2025-12-31T00:00:00.000Z" (by decide)
  · exact c10_drag_reassign.2.2.2.2 ⟨false, [], []⟩ "t1" "colB"
      (some "2025-11-01T12:00:00.000Z") rfl

/-- Counterexample for C10 as stated: in the fallback-capable variant's drag
handler, a card that already carries a timestamp keeps it — the edit's
`dateISO` is the card's own `2025-11-01...`, not the current time
`2025-12-31...`. -/
theorem c10_drag_reassign_counterexample :
    onDragOverPatchLocalVariant "t1" "colB"
      (.task (⟨"t1", "colA", 50, some "2025-11-01T12:00:00.000Z", false⟩ : Task))
      (.column (⟨"colB", "B"⟩ : Column)) "2025-12-31T00:00:00.000Z" =
      some ("t1", ⟨none, some (some "2025-11-01T12:00:00.000Z"), some "colB", none⟩) ∧
    ¬ onDragOverPatchLocalVariant "t1" "colB"
      (.task (⟨"t1", "colA", 50, some "2025-11-01T12:00:00.000Z", false⟩ : Task))
      (.column (⟨"colB", "B"⟩ : Column)) "2025-12-31T00:00:00.000Z" =
      some ("t1", ⟨none, some (some "2025-12-31T00:00:00.000Z"), some "colB", none⟩) := by
  constructor
  · rfl
  · intro h
    have h2 : (some ("t1",
        (⟨none, some (some "2025-11-01T12:00:00.000Z"), some "colB", none⟩ : TaskPatch)) :
          Option (String × TaskPatch)) =
        some ("t1", ⟨none, some (some "2025-12-31T00:00:00.000Z"), some "colB", none⟩) := by
      rw [← h]
      rfl
    simp [TaskPatch.mk.injEq] at h2

end DnD
